import Mathlib

/-!
Shallow embedding of `keras_autodoc/autogen.py` (class `DocumentationGenerator`)
together with models of the helper functions it imports from sibling modules
(`utils`, `docstring`, `get_signatures`, `examples`) that are not part of the
source tree; those helpers are modelled from the specification and each such
definition is marked `Modelled from the spec:` in its doc comment.

Python values are embedded as follows: a documentable reference (a dotted-path
string or a live function/class/method object) becomes `Element`; the runtime
importing machinery becomes an explicit environment `Env : String → Option
LiveObject`; exceptions become `Except PyError` / explicit error fields; the
destination directory becomes an association list from relative file path to
file content, with `none` standing for "the directory does not exist"; the
side-effect order of `generate` is recorded as a trace of `Event`s.
-/

namespace KerasAutodoc

/-- The kind of a documented Python object: function, class or method. -/
inductive PyKind
  | function
  | cls
  | method
deriving DecidableEq, Repr

/-- A live Python object as far as the generator inspects it: its `__name__`,
its canonical dotted path (`utils.get_dotted_path`), the top-level package of
its module, its kind, its docstring (`inspect.getdoc`; `none` when absent) and
the text of its parameter list used when building the signature. -/
structure LiveObject where
  name : String
  dottedPath : String
  topPackage : String
  kind : PyKind
  docstring : Option String
  paramsText : String
deriving DecidableEq, Repr

/-- A documentable reference in a page list: either a dotted-path string or a
direct in-memory object. -/
inductive Element
  | str (s : String)
  | obj (o : LiveObject)
deriving DecidableEq, Repr

/-- The name used in the `ImportError` raised when a reference fails to
resolve. -/
def Element.refName : Element → String
  | .str s => s
  | .obj o => o.dottedPath

/-- A value of the Python `pages` dictionary: a list, a tuple, or some other
value (carrying its `%s` rendering and the `%s` rendering of its type, as the
source's error message interpolates them). -/
inductive PageValue
  | list (xs : List Element)
  | tuple (xs : List Element)
  | other (reprStr : String) (typeName : String)
deriving DecidableEq, Repr

/-- Whether the value is an ordered sequence (`isinstance(x, (list, tuple))`). -/
def PageValue.isSeq : PageValue → Bool
  | .list _ => true
  | .tuple _ => true
  | .other _ _ => false

/-- The elements of a sequence page value (`[]` on the non-sequence case,
which construction rejects before they would ever be iterated). -/
def PageValue.elems : PageValue → List Element
  | .list xs => xs
  | .tuple xs => xs
  | .other _ _ => []

/-- The Python exceptions the embedded code can raise. -/
inductive PyError
  | valueError (msg : String)
  | importError (name : String)
  | attributeError (attr : String)
  | fileNotFound (path : String)
deriving DecidableEq, Repr

/-- The import environment: which dotted-path strings resolve to which live
objects (`none` = importing/attribute lookup fails). -/
def Env : Type := String → Option LiveObject

/-! ### Character-list string helpers

Executable, structurally recursive models of the string operations the Python
code performs (`str.split`, `str.join`, `str.replace`, substring search), kept
kernel-reducible so that concrete claims evaluate by `rfl`/`decide`. -/

/-- Whether `pat` is a prefix of `cs`. -/
def leadsWith : List Char → List Char → Bool
  | [], _ => true
  | _ :: _, [] => false
  | p :: ps, c :: cs => p = c && leadsWith ps cs

/-- Whether `pat` occurs somewhere inside `cs`. -/
def containsSub (cs pat : List Char) : Bool :=
  match cs with
  | [] => leadsWith pat []
  | _ :: rest => leadsWith pat cs || containsSub rest pat

/-- Whether `sub` occurs somewhere inside `s`. -/
def strContains (s sub : String) : Bool :=
  containsSub s.toList sub.toList

/-- Split a character list at every `'.'` (model of Python `str.split('.')`);
`[]` splits to `[[]]`, matching `''.split('.') == ['']`. -/
def splitDots : List Char → List (List Char)
  | [] => [[]]
  | c :: rest =>
    match splitDots rest with
    | [] => if c = '.' then [[], []] else [[c]]
    | h :: t => if c = '.' then [] :: h :: t else (c :: h) :: t

/-- The dotted-path segments of a string (`element.split('.')`). -/
def splitSegments (s : String) : List String :=
  (splitDots s.toList).map (fun cs => String.mk cs)

/-- Join strings with a separator (model of Python `sep.join(xs)`). -/
def joinSep (sep : String) : List String → String
  | [] => ""
  | [x] => x
  | x :: xs => x ++ sep ++ joinSep sep xs

/-- Replace every occurrence of `pat` in `cs` by `sub`, scanning left to
right; `fuel` bounds the recursion and is instantiated with `cs.length`. -/
def replaceAux (sub pat : List Char) : Nat → List Char → List Char
  | 0, cs => cs
  | _ + 1, [] => []
  | fuel + 1, c :: rest =>
    if pat ≠ [] && leadsWith pat (c :: rest) then
      sub ++ replaceAux sub pat fuel ((c :: rest).drop pat.length)
    else
      c :: replaceAux sub pat fuel rest

/-- Replace every occurrence of `pat` in `s` by `sub`. -/
def strReplace (s pat sub : String) : String :=
  String.mk (replaceAux sub.toList pat.toList s.toList.length s.toList)

/-! ### Python-dict helpers -/

/-- Python dict assignment `d[k] = v`: overwrite the entry in place if the key
is present, else append it. -/
def dictAssign {α : Type} : List (String × α) → String → α → List (String × α)
  | [], k, v => [(k, v)]
  | (k', v') :: rest, k, v =>
    if k' = k then (k, v) :: rest else (k', v') :: dictAssign rest k v

/-- Python dict lookup `d.get(k)`. -/
def dictGet {α : Type} : List (String × α) → String → Option α
  | [], _ => none
  | (k', v') :: rest, k => if k' = k then some v' else dictGet rest k

/-! ### Models of the helper modules imported by `autogen.py`

`utils.py`, `docstring.py`, `get_signatures.py` and `examples.py` are not part
of the source tree; the definitions below are modelled from the specification
(sections 4.2, 4.3, 4.4 and 6 of `spec.md`). -/

/-- Modelled from the spec: `utils.import_object` — "given a dotted-path
string, resolves it to a live object by importing the longest valid module
prefix and then following attribute access for the remainder of the path"
(embedded as a lookup in the import environment), and "given a live object
directly, resolution is a no-op". -/
def import_object (env : Env) : Element → Option LiveObject
  | .str s => env s
  | .obj o => some o

/-- Modelled from the spec: `utils.ismethod` — whether the resolved object is
a bound/unbound method. -/
def ismethod (o : LiveObject) : Bool :=
  match o.kind with
  | .method => true
  | _ => false

/-- Modelled from the spec: `utils.get_name` — the object's bare name, as in
the spec's example heading "### Dense class". -/
def get_name (o : LiveObject) : String := o.name

/-- Modelled from the spec: `utils.get_type` — the heading label selected from
whether the object is a function, class, or method. -/
def get_type (o : LiveObject) : String :=
  match o.kind with
  | .function => "function"
  | .cls => "class"
  | .method => "method"

/-- Modelled from the spec: `utils.get_dotted_path` — the canonical dotted
path of an object. -/
def get_dotted_path (o : LiveObject) : String := o.dottedPath

/-- Model of `inspect.getdoc`: the object's docstring, `none` when absent. -/
def getdoc (o : LiveObject) : Option String := o.docstring

/-- The `project_url` constructor argument: a single URL or a mapping from
top-level package name to URL. -/
inductive ProjectUrl
  | single (url : String)
  | perPackage (m : List (String × String))
deriving DecidableEq, Repr

/-- Modelled from the spec: `utils.make_source_link` — "a source hyperlink
line built from the object's module path, qualified name, and a base project
URL (supports either a single URL template or a per-top-level-package mapping
of URL templates)"; with a mapping, "the link uses the entry matching the
object's top-level package, or is omitted if no entry matches" (`none` =
omitted). -/
def make_source_link (o : LiveObject) (pu : ProjectUrl) : Option String :=
  match pu with
  | .single url => some ("<span style=\x22float:right;\x22>[[source]](" ++ url ++ "/" ++ o.dottedPath ++ ")</span>")
  | .perPackage m =>
    (dictGet m o.topPackage).map
      (fun url => "<span style=\x22float:right;\x22>[[source]](" ++ url ++ "/" ++ o.dottedPath ++ ")</span>")

/-- Modelled from the spec: `utils.code_snippet` — the code-formatted
(fenced) rendering of the signature. -/
def code_snippet (snippet : String) : String :=
  "```python\n" ++ snippet ++ "\n```\n"

/-- Modelled from the spec: alias substitution inside the signature text —
"substituting any parameter whose default or annotation type is a class
present in the alias table with the user-chosen alias rather than the
canonical dotted path" (only string aliases can be substituted into text). -/
def applyAliases (aliases : List (String × Element)) (text : String) : String :=
  aliases.foldl
    (fun acc kv =>
      match kv.2 with
      | .str a => strReplace acc kv.1 a
      | .obj _ => acc)
    text

/-- Modelled from the spec: `get_signatures.get_signature` — "builds a
signature string reflecting the object's call parameters", displayed under the
override name when one is given and under the canonical dotted path otherwise,
with alias substitution applied to the parameter text. -/
def get_signature (o : LiveObject) (aliases : List (String × Element))
    (signature_override : Option String) : String :=
  (signature_override.getD o.dottedPath) ++ "(" ++ applyAliases aliases o.paramsText ++ ")"

/-- The placeholder token recognised inside template files (named in the
source's class docstring). -/
def autogeneratedTag : String := "\x7b\x7bautogenerated\x7d\x7d"

/-- Modelled from the spec: `utils.insert_in_file` — "locate a marker token in
the existing file content and substitute the rendered markdown there; fail if
the target file does not exist after the template copy". The destination
directory is an association list path → content, `none` when the directory
itself does not exist. -/
def insert_in_file (markdown : String) (dest : Option (List (String × String)))
    (file_path : String) : Except PyError (List (String × String)) :=
  match dest with
  | none => .error (.fileNotFound file_path)
  | some files =>
    match dictGet files file_path with
    | none => .error (.fileNotFound file_path)
    | some content => .ok (dictAssign files file_path (strReplace content autogeneratedTag markdown))

/-! ### The `DocumentationGenerator` class (`autogen.py`, lines 15–120) -/

/-- The state of a constructed `DocumentationGenerator`: the constructor
arguments plus the `class_aliases` table filled by `_fill_aliases`. The
directory arguments are embedded by their content (`template_dir` /
`examples_dir` as association lists path → content); the two overridable
methods `process_docstring` and `process_signature` are embedded as function
fields (defaults: the docstring markdown-normalization pass of `docstring.py`,
and the identity, respectively). -/
structure DocumentationGenerator where
  pages : List (String × PageValue)
  project_url : Option ProjectUrl
  template_dir : Option (List (String × String))
  examples_dir : Option (List (String × String))
  class_aliases : List (String × Element)
  process_docstring : String → String
  process_signature : String → String

/-- The error message raised by `_fill_aliases` for a page value that is not a
list or tuple (source lines 111–114); `reprStr` and `typeName` stand for the
`%s` interpolations of the value and of its type. -/
def pagesErrorMsg (reprStr typeName : String) : String :=
  "Dictionary `pages` must map file paths to lists of objects. Expected a list, but got "
    ++ reprStr ++ " of type " ++ typeName ++ "."

/-- The inner loop of `_fill_aliases` (source lines 115–120): resolve each
element, skip it unless it is a class, otherwise record
`class_aliases[true_dotted_path] = element_as_str`. -/
def fillFromElements (env : Env) : List (String × Element) → List Element →
    Except PyError (List (String × Element))
  | t, [] => .ok t
  | t, e :: rest =>
    match import_object env e with
    | none => .error (.importError e.refName)
    | some o =>
      if o.kind = PyKind.cls then
        fillFromElements env (dictAssign t (get_dotted_path o) e) rest
      else
        fillFromElements env t rest

/-- Embedding of `DocumentationGenerator._fill_aliases` (source lines 108–120): iterate the
page values in order; raise `ValueError` on the first value that is not a list
or tuple; otherwise scan its elements into the alias table. -/
def _fill_aliases (env : Env) : List (String × PageValue) → List (String × Element) →
    Except PyError (List (String × Element))
  | [], t => .ok t
  | (_, v) :: rest, t =>
    match v with
    | .other r tn => .error (.valueError (pagesErrorMsg r tn))
    | .list xs =>
      match fillFromElements env t xs with
      | .error e => .error e
      | .ok t' => _fill_aliases env rest t'
    | .tuple xs =>
      match fillFromElements env t xs with
      | .error e => .error e
      | .ok t' => _fill_aliases env rest t'

/-- Embedding of `DocumentationGenerator.__init__` (source lines 34–44): store the
arguments, start from an empty alias table and run `_fill_aliases`. -/
def DocumentationGenerator.init (env : Env) (pages : List (String × PageValue))
    (project_url : Option ProjectUrl) (template_dir examples_dir : Option (List (String × String)))
    (pd ps : String → String) : Except PyError DocumentationGenerator :=
  match _fill_aliases env pages [] with
  | .error e => .error e
  | .ok t => .ok ⟨pages, project_url, template_dir, examples_dir, t, pd, ps⟩

/-- Embedding of the slice-and-join at source line 84: the final two
dotted-path segments of a reference string (the whole string when it has
fewer than two segments, as Python slicing does). -/
def lastTwoSegments (s : String) : String :=
  let parts := splitSegments s
  joinSep "." (parts.drop (parts.length - 2))

/-- The list of markdown sub-blocks built by `_render_from_object` (source
lines 94–105), in order: the source link when a project URL is configured (and,
for a per-package mapping, an entry matches — see `make_source_link`), the
heading, the code-formatted signature, and the processed docstring when the
object's docstring is non-empty (`if docstring:`). -/
def DocumentationGenerator.renderSubblocks (g : DocumentationGenerator) (o : LiveObject)
    (signature_override : Option String) : List String :=
  (match g.project_url with
   | some pu => (make_source_link o pu).toList
   | none => [])
  ++ ["### " ++ get_name o ++ " " ++ get_type o ++ "\n",
      code_snippet (g.process_signature (get_signature o g.class_aliases signature_override))]
  ++ (match getdoc o with
      | some d => if d = "" then [] else [g.process_docstring d]
      | none => [])

/-- Embedding of `DocumentationGenerator._render_from_object` (source lines 93–106): join
the sub-blocks with blank lines and append the horizontal separator. -/
def DocumentationGenerator._render_from_object (g : DocumentationGenerator) (o : LiveObject)
    (signature_override : Option String) : String :=
  joinSep "\n\n" (g.renderSubblocks o signature_override) ++ "\n\n----\n\n"

/-- Embedding of `DocumentationGenerator.render` (source lines 79–91): a string reference
is resolved with `import_object`; a method gets the final two dotted segments
as its signature override, any other string keeps the full string; a live
object is rendered directly with no override. -/
def DocumentationGenerator.render (g : DocumentationGenerator) (env : Env) :
    Element → Except PyError String
  | .str s =>
    match import_object env (.str s) with
    | none => .error (.importError s)
    | some o =>
      if ismethod o then
        .ok (g._render_from_object o (some (lastTwoSegments s)))
      else
        .ok (g._render_from_object o (some s))
  | .obj o => .ok (g._render_from_object o none)

/-- The method names defined in the class body of `DocumentationGenerator`
(source lines 34–120). `_render` is not among them: the call
`self._render(element)` at source line 65 therefore raises `AttributeError`. -/
def methodNames : List String :=
  ["__init__", "generate", "process_docstring", "process_signature",
   "render", "_render_from_object", "_fill_aliases"]

/-- The side effects of `generate`, in execution order: removing the existing
destination directory, copying the template directory, inserting a page's
concatenated markdown into its file, copying the examples directory. -/
inductive Event
  | evRmtree
  | evCopyTemplate
  | evInsert (page : String)
  | evCopyExamples
deriving DecidableEq, Repr

/-- The outcome of a `generate` call: the final destination directory content
(`none` = the directory does not exist), the trace of side effects that
actually executed, and the exception that aborted the call, if any (Python
side effects persist when an exception propagates). -/
structure GenResult where
  dest : Option (List (String × String))
  trace : List Event
  err : Option PyError
deriving DecidableEq, Repr

/-- The body of `for element in elements: markdown_text += self._render(element)`
(source lines 63–65). Attribute lookup of `_render` on the instance is modelled
by membership in `methodNames`; it fails, so for a non-empty element list the
loop raises `AttributeError` before rendering anything (were the method present,
it would dispatch to `render`). -/
def renderPage (g : DocumentationGenerator) (env : Env) :
    List Element → String → Except PyError String
  | [], acc => .ok acc
  | e :: rest, acc =>
    if methodNames.contains "_render" then
      match g.render env e with
      | .error er => .error er
      | .ok s => renderPage g env rest (acc ++ s)
    else
      .error (.attributeError "_render")

/-- The page loop of `generate` (source lines 62–66): for each page, build the
concatenated markdown, insert it into the page's file at the destination, and
continue; an exception aborts the loop, keeping the side effects already
performed. Returns the destination content, the insertion events of this
phase, and the exception, if any. -/
def processPages (g : DocumentationGenerator) (env : Env) :
    List (String × PageValue) → Option (List (String × String)) →
    Option (List (String × String)) × List Event × Option PyError
  | [], dest => (dest, [], none)
  | (file_path, v) :: rest, dest =>
    match renderPage g env v.elems "" with
    | .error er => (dest, [], some er)
    | .ok markdown_text =>
      match insert_in_file markdown_text dest file_path with
      | .error er => (dest, [], some er)
      | .ok files =>
        ((processPages g env rest (some files)).1,
         Event.evInsert file_path :: (processPages g env rest (some files)).2.1,
         (processPages g env rest (some files)).2.2)

/-- Behaviour of `generate` after the destination has been cleaned (source lines 58–69):
copy the template directory when one is configured (`if self.template_dir:`),
run the page loop, then copy the examples directory into the `examples/`
subdirectory when one is configured (`if self.examples_dir is not None:`,
modelled from the spec for `examples.copy_examples`: a verbatim recursive
copy). -/
def DocumentationGenerator.generateFrom (g : DocumentationGenerator) (env : Env) : GenResult :=
  match processPages g env g.pages g.template_dir with
  | (d2, evs, some er) =>
    ⟨d2, (match g.template_dir with | some _ => [Event.evCopyTemplate] | none => []) ++ evs,
     some er⟩
  | (d2, evs, none) =>
    match g.examples_dir with
    | some ex =>
      ⟨some (d2.getD [] ++ ex.map (fun pc => ("examples/" ++ pc.1, pc.2))),
       (match g.template_dir with | some _ => [Event.evCopyTemplate] | none => []) ++ evs
         ++ [Event.evCopyExamples],
       none⟩
    | none =>
      ⟨d2, (match g.template_dir with | some _ => [Event.evCopyTemplate] | none => []) ++ evs,
       none⟩

/-- Embedding of `DocumentationGenerator.generate` (source lines 46–69): if the destination
directory exists it is removed first (`shutil.rmtree`); everything after that
point is independent of the pre-existing content. -/
def DocumentationGenerator.generate (g : DocumentationGenerator) (env : Env)
    (destPre : Option (List (String × String))) : GenResult :=
  match destPre with
  | some _ =>
    ⟨(g.generateFrom env).dest, Event.evRmtree :: (g.generateFrom env).trace,
     (g.generateFrom env).err⟩
  | none => g.generateFrom env

/-! ### Concrete instances used by closed theorems -/

/-- An import environment in which no dotted path resolves. -/
def emptyEnv : Env := fun _ => none

/-! ### General lemmas about the embedding -/

theorem dictGet_dictAssign {α : Type} (t : List (String × α)) (k : String) (v : α)
    (k' : String) : dictGet (dictAssign t k v) k' = if k = k' then some v else dictGet t k' := by
  induction t with
  | nil => simp [dictAssign, dictGet]
  | cons hd tl ih =>
    obtain ⟨k0, v0⟩ := hd
    by_cases h0 : k0 = k
    · subst h0
      by_cases h1 : k0 = k'
      · simp [dictAssign, dictGet, h1]
      · simp [dictAssign, dictGet, h1]
    · by_cases h1 : k0 = k'
      · subst h1
        have hk : ¬ k = k0 := fun h => h0 h.symm
        simp [dictAssign, dictGet, h0, hk]
      · simp [dictAssign, dictGet, h0, h1, ih]

theorem generate_dest_eq (g : DocumentationGenerator) (env : Env)
    (d : Option (List (String × String))) :
    (g.generate env d).dest = (g.generateFrom env).dest := by
  cases d <;> rfl

theorem generate_err_eq (g : DocumentationGenerator) (env : Env)
    (d : Option (List (String × String))) :
    (g.generate env d).err = (g.generateFrom env).err := by
  cases d <;> rfl

theorem fillFromElements_isOk (env : Env) :
    ∀ (els : List Element) (t : List (String × Element)),
    (∀ e ∈ els, (import_object env e).isSome = true) →
    ∃ t', fillFromElements env t els = .ok t' := by
  intro els
  induction els with
  | nil => exact fun t _ => ⟨t, rfl⟩
  | cons e rest ih =>
    intro t h
    have he := h e (by simp)
    have hrest : ∀ x ∈ rest, (import_object env x).isSome = true :=
      fun x hx => h x (by simp [hx])
    cases himp : import_object env e with
    | none => rw [himp] at he; simp at he
    | some o =>
      by_cases hc : o.kind = PyKind.cls
      · obtain ⟨t', ht'⟩ := ih (dictAssign t (get_dotted_path o) e) hrest
        exact ⟨t', by simp [fillFromElements, himp, hc, ht']⟩
      · obtain ⟨t', ht'⟩ := ih t hrest
        exact ⟨t', by simp [fillFromElements, himp, hc, ht']⟩

theorem fill_aliases_isOk (env : Env) :
    ∀ (pages : List (String × PageValue)) (t : List (String × Element)),
    (∀ kv ∈ pages, kv.2.isSeq = true) →
    (∀ kv ∈ pages, ∀ e ∈ kv.2.elems, (import_object env e).isSome = true) →
    ∃ t', _fill_aliases env pages t = .ok t' := by
  intro pages
  induction pages with
  | nil => exact fun t _ _ => ⟨t, rfl⟩
  | cons kv rest ih =>
    intro t hseq hres
    obtain ⟨k, v⟩ := kv
    have hseqRest : ∀ x ∈ rest, x.2.isSeq = true := fun x hx => hseq x (by simp [hx])
    have hresRest : ∀ x ∈ rest, ∀ e ∈ x.2.elems, (import_object env e).isSome = true :=
      fun x hx => hres x (by simp [hx])
    cases v with
    | other r tn =>
      have := hseq (k, PageValue.other r tn) (by simp)
      simp [PageValue.isSeq] at this
    | list xs =>
      obtain ⟨t1, ht1⟩ :=
        fillFromElements_isOk env xs t (fun e he => hres (k, PageValue.list xs) (by simp) e he)
      obtain ⟨t', ht'⟩ := ih t1 hseqRest hresRest
      exact ⟨t', by simp [_fill_aliases, ht1, ht']⟩
    | tuple xs =>
      obtain ⟨t1, ht1⟩ :=
        fillFromElements_isOk env xs t (fun e he => hres (k, PageValue.tuple xs) (by simp) e he)
      obtain ⟨t', ht'⟩ := ih t1 hseqRest hresRest
      exact ⟨t', by simp [_fill_aliases, ht1, ht']⟩

theorem fill_aliases_first_bad_value (env : Env) :
    ∀ (pre : List (String × PageValue)) (k r tn : String)
      (rest : List (String × PageValue)) (t : List (String × Element)),
    (∀ kv ∈ pre, kv.2.isSeq = true ∧ ∀ e ∈ kv.2.elems, (import_object env e).isSome = true) →
    _fill_aliases env (pre ++ (k, PageValue.other r tn) :: rest) t =
      .error (.valueError (pagesErrorMsg r tn)) := by
  intro pre
  induction pre with
  | nil => intro k r tn rest t _; rfl
  | cons kv pre' ih =>
    intro k r tn rest t h
    obtain ⟨k0, v0⟩ := kv
    have h0 := h (k0, v0) (by simp)
    have h' : ∀ x ∈ pre', x.2.isSeq = true ∧
        ∀ e ∈ x.2.elems, (import_object env e).isSome = true :=
      fun x hx => h x (by simp [hx])
    cases v0 with
    | other r0 tn0 => simp [PageValue.isSeq] at h0
    | list xs =>
      obtain ⟨t1, ht1⟩ := fillFromElements_isOk env xs t h0.2
      simpa [_fill_aliases, ht1] using ih k r tn rest t1 h'
    | tuple xs =>
      obtain ⟨t1, ht1⟩ := fillFromElements_isOk env xs t h0.2
      simpa [_fill_aliases, ht1] using ih k r tn rest t1 h'

/-! ### Claims -/

/-- Claim C3: a documentable reference that is a direct in-memory object is
accepted as-is: `import_object` returns it unchanged, rendering it does not
depend on the import environment and uses no signature override, and the
alias-table scan treats it independently of the import environment. -/
theorem C3_live_object_noop (g : DocumentationGenerator) (env env2 : Env) (o : LiveObject)
    (t : List (String × Element)) :
    import_object env (Element.obj o) = some o
    ∧ g.render env (Element.obj o) = Except.ok (g._render_from_object o none)
    ∧ g.render env (Element.obj o) = g.render env2 (Element.obj o)
    ∧ fillFromElements env t [Element.obj o] = fillFromElements env2 t [Element.obj o] :=
  ⟨rfl, rfl, rfl, rfl⟩

/-- Claim C7: when the destination directory pre-exists, `generate` removes it
first: the resulting directory content and error are exactly those of a run
against an absent destination (so no pre-existing file survives), and the
trace records the removal as the first operation. -/
theorem C7_destructive_overwrite (g : DocumentationGenerator) (env : Env)
    (files : List (String × String)) :
    (g.generate env (some files)).dest = (g.generate env none).dest
    ∧ (g.generate env (some files)).err = (g.generate env none).err
    ∧ (g.generate env (some files)).trace = Event.evRmtree :: (g.generate env none).trace :=
  ⟨rfl, rfl, rfl⟩

/-- Claim C9: `generate` is idempotent: running it again on the destination
directory produced by a first run yields the same directory content (and the
same error outcome), for any fixed configuration, environment and template
content. -/
theorem C9_generate_idempotent (g : DocumentationGenerator) (env : Env)
    (destPre : Option (List (String × String))) :
    (g.generate env ((g.generate env destPre).dest)).dest = (g.generate env destPre).dest
    ∧ (g.generate env ((g.generate env destPre).dest)).err = (g.generate env destPre).err := by
  constructor
  · rw [generate_dest_eq, generate_dest_eq]
  · rw [generate_err_eq, generate_err_eq]

/-- A documentable function used by the C1 scenario. -/
def fnObj : LiveObject :=
  { name := "f", dottedPath := "pkg.f", topPackage := "pkg", kind := .function,
    docstring := some "Does things.", paramsText := "x" }

/-- An environment in which only `pkg.f` resolves. -/
def envC1 : Env := fun s => if s = "pkg.f" then some fnObj else none

/-- One page with one resolvable reference. -/
def pagesC1 : List (String × PageValue) :=
  [("page.md", PageValue.list [Element.str "pkg.f"])]

/-- The template content for the C1 scenario. -/
def tmplC1 : List (String × String) :=
  [("page.md", "# Title\n\n\x7b\x7bautogenerated\x7d\x7d\n")]

/-- The generator the C1 scenario constructs. -/
def gC1 : DocumentationGenerator :=
  { pages := pagesC1, project_url := none, template_dir := some tmplC1,
    examples_dir := none, class_aliases := [], process_docstring := id,
    process_signature := id }

/-- Claim C1 (code bug): construction of the generator for a configuration
with a non-empty page succeeds, but `generate` raises
`AttributeError: _render` — the loop at source line 65 calls `self._render`,
a method the class does not define (it defines `render`) — so nothing is
rendered and nothing is inserted: the destination still holds the raw
template, with its placeholder tag intact, and the trace records only the
template copy. -/
theorem C1_generate_attribute_error :
    methodNames.contains "_render" = false
    ∧ DocumentationGenerator.init envC1 pagesC1 none (some tmplC1) none id id = Except.ok gC1
    ∧ gC1.generate envC1 none =
        ⟨some tmplC1, [Event.evCopyTemplate], some (PyError.attributeError "_render")⟩ :=
  ⟨rfl, rfl, rfl⟩

/-- A pages mapping whose only value is the string `notalist` (not a list or
tuple), under the key `k.md`. -/
def pagesC2 : List (String × PageValue) :=
  [("k.md", PageValue.other "notalist" "<class \x27str\x27>")]

/-- Claim C2, counterexample: construction over `pagesC2` fails with the
source's `ValueError`, whose message contains the offending value and its
type but does not identify the offending key `k.md`, contradicting the claim
that the error identifies the key. -/
theorem C2_counterexample :
    _fill_aliases emptyEnv pagesC2 [] =
      .error (.valueError (pagesErrorMsg "notalist" "<class \x27str\x27>"))
    ∧ strContains (pagesErrorMsg "notalist" "<class \x27str\x27>") "k.md" = false
    ∧ strContains (pagesErrorMsg "notalist" "<class \x27str\x27>") "notalist" = true
    ∧ strContains (pagesErrorMsg "notalist" "<class \x27str\x27>") "<class \x27str\x27>" = true :=
  ⟨rfl, rfl, rfl, rfl⟩

/-- Claim C2 (amended): if every page value is an ordered sequence and every
configured reference resolves, alias-table construction succeeds; and for the
first page value that is not a list or tuple (every earlier page being a
sequence of resolvable references), construction fails eagerly with a
`ValueError` whose message interpolates the offending value and its type
(but, per the counterexample, not the key). -/
theorem C2_fill_aliases (env : Env) (pages : List (String × PageValue)) :
    ((∀ kv ∈ pages, kv.2.isSeq = true) →
     (∀ kv ∈ pages, ∀ e ∈ kv.2.elems, (import_object env e).isSome = true) →
     ∃ t, _fill_aliases env pages [] = .ok t)
    ∧ (∀ pre k v rest, pages = pre ++ (k, v) :: rest → v.isSeq = false →
       (∀ kv ∈ pre, kv.2.isSeq = true ∧ ∀ e ∈ kv.2.elems, (import_object env e).isSome = true) →
       ∃ r tn, v = PageValue.other r tn ∧
         _fill_aliases env pages [] = .error (.valueError (pagesErrorMsg r tn))) := by
  constructor
  · exact fun hseq hres => fill_aliases_isOk env pages [] hseq hres
  · intro pre k v rest hsplit hbad hpre
    cases v with
    | list xs => simp [PageValue.isSeq] at hbad
    | tuple xs => simp [PageValue.isSeq] at hbad
    | other r tn =>
      exact ⟨r, tn, rfl, by rw [hsplit]; exact fill_aliases_first_bad_value env pre k r tn rest [] hpre⟩

/-- Witness for Claim C2: both branches of the amended claim at concrete
inputs — a configuration of sequences succeeds, and `pagesC2` fails with the
value/type-carrying message. -/
theorem C2_fill_aliases_witness :
    (∃ t, _fill_aliases emptyEnv [("a.md", PageValue.list [])] [] = .ok t)
    ∧ (∃ r tn, PageValue.other "notalist" "<class \x27str\x27>" = PageValue.other r tn ∧
        _fill_aliases emptyEnv pagesC2 [] = .error (.valueError (pagesErrorMsg r tn))) :=
  ⟨(C2_fill_aliases emptyEnv [("a.md", PageValue.list [])]).1 (by decide) (by decide),
   (C2_fill_aliases emptyEnv pagesC2).2 [] "k.md"
     (PageValue.other "notalist" "<class \x27str\x27>") [] rfl rfl (by simp)⟩

/-- A documentable method used by the C4 scenario. -/
def mObj : LiveObject :=
  { name := "fit", dottedPath := "pkg.mod.Model.fit", topPackage := "pkg", kind := .method,
    docstring := none, paramsText := "x, y" }

/-- An environment in which only `pkg.mod.Model.fit` resolves. -/
def envC4 : Env := fun s => if s = "pkg.mod.Model.fit" then some mObj else none

/-- A generator with no project URL, no aliases and identity hooks. -/
def gC4 : DocumentationGenerator :=
  { pages := [], project_url := none, template_dir := none, examples_dir := none,
    class_aliases := [], process_docstring := id, process_signature := id }

/-- The block rendered for the method reference `pkg.mod.Model.fit`. -/
def blockC4 : String :=
  "### fit method\n\n\n```python\nModel.fit(x, y)\n```\n\n\n----\n\n"

/-- Claim C4, counterexample: rendering the method reference
`pkg.mod.Model.fit` produces a block whose heading line is `### fit method` —
the object's bare name and kind — not the two-segment form `Model.fit` the
claim asserts for the heading; the two-segment form appears in the
code-formatted signature instead. -/
theorem C4_counterexample :
    gC4.render envC4 (Element.str "pkg.mod.Model.fit") = Except.ok blockC4
    ∧ strContains blockC4 "### fit method" = true
    ∧ strContains blockC4 "### Model.fit method" = false
    ∧ strContains blockC4 "Model.fit(x, y)" = true :=
  ⟨rfl, rfl, rfl, rfl⟩

/-- Claim C4 (amended): for a string reference that resolves to a method the
signature display override is exactly the final two dotted segments of the
reference, and for a non-method string reference it is the full dotted path;
the override becomes the name part of the code-formatted signature, while the
heading (see the counterexample) shows the bare name and kind. -/
theorem C4_signature_override (g : DocumentationGenerator) (env : Env) (s : String)
    (o : LiveObject) (h : import_object env (Element.str s) = some o) :
    g.render env (Element.str s) =
      Except.ok (g._render_from_object o
        (some (if ismethod o then lastTwoSegments s else s)))
    ∧ (∀ p a b, splitSegments s = p ++ [a, b] → lastTwoSegments s = a ++ "." ++ b)
    ∧ (∀ so, get_signature o g.class_aliases (some so) =
        so ++ "(" ++ applyAliases g.class_aliases o.paramsText ++ ")") := by
  refine ⟨?_, ?_, fun so => rfl⟩
  · simp only [DocumentationGenerator.render, h]
    by_cases hm : ismethod o <;> simp [hm]
  · intro p a b hsegs
    unfold lastTwoSegments
    rw [hsegs]
    simp only [List.length_append, List.length_cons, List.length_nil]
    have hdrop : (p ++ [a, b]).drop (p.length + (0 + 1 + 1) - 2) = [a, b] := by
      have : p.length + (0 + 1 + 1) - 2 = p.length := by omega
      rw [this]
      exact List.drop_left p [a, b]
    rw [hdrop]
    rfl

/-- Witness for Claim C4: the amended claim applied to the concrete method
reference `pkg.mod.Model.fit`. -/
theorem C4_signature_override_witness :
    gC4.render envC4 (Element.str "pkg.mod.Model.fit") =
      Except.ok (gC4._render_from_object mObj
        (some (if ismethod mObj then lastTwoSegments "pkg.mod.Model.fit"
               else "pkg.mod.Model.fit"))) :=
  (C4_signature_override gC4 envC4 "pkg.mod.Model.fit" mObj rfl).1

/-- A generator whose project URL is a per-package mapping with a single entry
for package `alpha`. -/
def gC5 : DocumentationGenerator :=
  { pages := [], project_url := some (ProjectUrl.perPackage [("alpha", "https://example.com/alpha")]),
    template_dir := none, examples_dir := none, class_aliases := [],
    process_docstring := id, process_signature := id }

/-- A documentable function living in package `beta`, which the `gC5` mapping
does not cover. -/
def oC5 : LiveObject :=
  { name := "g", dottedPath := "beta.g", topPackage := "beta", kind := .function,
    docstring := none, paramsText := "x" }

/-- Claim C5, counterexample: `gC5` has a project URL configured
(`project_url` is not `None`), yet the block rendered for `oC5` contains no
source-link line, because the per-package mapping has no entry for the
object's top-level package — refuting the claimed "if and only if
`project_url` is not `None`". -/
theorem C5_counterexample :
    gC5.project_url ≠ none
    ∧ gC5.renderSubblocks oC5 none = ["### g function\n", "```python\nbeta.g(x)\n```\n"]
    ∧ strContains (gC5._render_from_object oC5 none) "[[source]]" = false := by
  refine ⟨?_, rfl, rfl⟩
  intro h
  simp [gC5] at h

/-- Claim C5 (amended): no source-link line is prepended when `project_url` is
`None`; when it is configured, the block is the link produced by
`make_source_link` (if any) prepended to the link-free block; a single URL
always yields a link, and a per-package mapping yields one exactly when it has
an entry for the object's top-level package. -/
theorem C5_source_link (g : DocumentationGenerator) (o : LiveObject) (so : Option String) :
    (g.project_url = none →
      g.renderSubblocks o so =
        ["### " ++ get_name o ++ " " ++ get_type o ++ "\n",
         code_snippet (g.process_signature (get_signature o g.class_aliases so))]
        ++ (match getdoc o with
            | some d => if d = "" then [] else [g.process_docstring d]
            | none => []))
    ∧ (∀ pu, g.project_url = some pu →
        g.renderSubblocks o so =
          (make_source_link o pu).toList ++
          ["### " ++ get_name o ++ " " ++ get_type o ++ "\n",
           code_snippet (g.process_signature (get_signature o g.class_aliases so))]
          ++ (match getdoc o with
              | some d => if d = "" then [] else [g.process_docstring d]
              | none => []))
    ∧ (∀ u, (make_source_link o (ProjectUrl.single u)).isSome = true)
    ∧ (∀ m, (make_source_link o (ProjectUrl.perPackage m)).isSome =
        (dictGet m o.topPackage).isSome) := by
  refine ⟨?_, ?_, fun u => rfl, fun m => ?_⟩
  · intro h
    simp [DocumentationGenerator.renderSubblocks, h]
  · intro pu h
    simp [DocumentationGenerator.renderSubblocks, h]
  · simp [make_source_link]

/-- Witness for Claim C5: the amended claim applied to `gC4` (no project URL)
and the object `oC5`: the block starts directly with the heading. -/
theorem C5_source_link_witness :
    gC4.renderSubblocks oC5 none =
      ["### " ++ get_name oC5 ++ " " ++ get_type oC5 ++ "\n",
       code_snippet (gC4.process_signature (get_signature oC5 gC4.class_aliases none))]
      ++ (match getdoc oC5 with
          | some d => if d = "" then [] else [gC4.process_docstring d]
          | none => []) :=
  (C5_source_link gC4 oC5 none).1 rfl

/-- Claim C6: every rendered block is the blank-line join of, in order: an
optional source-link line (a single line at most, absent when no project URL
is configured), the heading with the object's name and kind, the
code-formatted signature, and an optional processed docstring body present
only when the object has a non-empty docstring — followed by the trailing
horizontal separator. -/
theorem C6_block_structure (g : DocumentationGenerator) (o : LiveObject) (so : Option String) :
    ∃ linkPart docPart,
      g._render_from_object o so =
        joinSep "\n\n" (linkPart ++
          ["### " ++ get_name o ++ " " ++ get_type o ++ "\n",
           code_snippet (g.process_signature (get_signature o g.class_aliases so))] ++ docPart)
        ++ "\n\n----\n\n"
      ∧ (linkPart = [] ∨ ∃ l, linkPart = [l])
      ∧ (g.project_url = none → linkPart = [])
      ∧ (docPart = [] ∨ ∃ d, getdoc o = some d ∧ d ≠ "" ∧ docPart = [g.process_docstring d])
      ∧ (getdoc o = none → docPart = []) := by
  refine ⟨(match g.project_url with
           | some pu => (make_source_link o pu).toList
           | none => []),
          (match getdoc o with
           | some d => if d = "" then [] else [g.process_docstring d]
           | none => []),
          rfl, ?_, ?_, ?_, ?_⟩
  · cases hpu : g.project_url with
    | none => exact Or.inl rfl
    | some pu =>
      cases hl : make_source_link o pu with
      | none => exact Or.inl (by simp [hl])
      | some l => exact Or.inr ⟨l, by simp [hl]⟩
  · intro h
    rw [h]
  · cases hd : getdoc o with
    | none => exact Or.inl rfl
    | some d =>
      by_cases he : d = ""
      · exact Or.inl (by simp [he])
      · exact Or.inr ⟨d, rfl, he, by simp [he]⟩
  · intro h
    rw [h]

theorem processPages_events (g : DocumentationGenerator) (env : Env) :
    ∀ (pages : List (String × PageValue)) (dest : Option (List (String × String))),
    ∀ x ∈ (processPages g env pages dest).2.1, ∃ p, x = Event.evInsert p := by
  intro pages
  induction pages with
  | nil => intro dest x hx; simp [processPages] at hx
  | cons kv rest ih =>
    intro dest x hx
    obtain ⟨fp, v⟩ := kv
    simp only [processPages] at hx
    cases hr : renderPage g env v.elems "" with
    | error er => simp [hr] at hx
    | ok md =>
      simp only [hr] at hx
      cases hi : insert_in_file md dest fp with
      | error er => simp [hi] at hx
      | ok files =>
        simp only [hi, List.mem_cons] at hx
        rcases hx with h | h
        · exact ⟨fp, h⟩
        · exact ih (some files) x h

theorem generateFrom_trace_shape (g : DocumentationGenerator) (env : Env) :
    ∃ b c d, (g.generateFrom env).trace = b ++ c ++ d
      ∧ (b = [] ∨ b = [Event.evCopyTemplate])
      ∧ (∀ x ∈ c, ∃ p, x = Event.evInsert p)
      ∧ (d = [] ∨ d = [Event.evCopyExamples]) := by
  unfold DocumentationGenerator.generateFrom
  rcases hpp : processPages g env g.pages g.template_dir with ⟨d2, evs, err⟩
  have hevs : ∀ x ∈ evs, ∃ p, x = Event.evInsert p := by
    intro x hx
    exact processPages_events g env g.pages g.template_dir x (by rw [hpp]; exact hx)
  have hb : (match g.template_dir with
      | some _ => [Event.evCopyTemplate]
      | none => ([] : List Event)) = [] ∨
      (match g.template_dir with
      | some _ => [Event.evCopyTemplate]
      | none => ([] : List Event)) = [Event.evCopyTemplate] := by
    cases g.template_dir with
    | none => exact Or.inl rfl
    | some _ => exact Or.inr rfl
  cases err with
  | some er =>
    exact ⟨_, evs, [], by simp, hb, hevs, Or.inl rfl⟩
  | none =>
    cases hex : g.examples_dir with
    | some ex =>
      exact ⟨_, evs, [Event.evCopyExamples], by simp, hb, hevs, Or.inr rfl⟩
    | none =>
      exact ⟨_, evs, [], by simp, hb, hevs, Or.inl rfl⟩

/-- Claim C8: the trace of every `generate` call decomposes, in order, into
the optional destination removal, then the optional template copy, then only
page insertions, then the optional examples copy — so the template copy
precedes every page insertion and every insertion precedes the examples
copy. -/
theorem C8_operation_order (g : DocumentationGenerator) (env : Env)
    (destPre : Option (List (String × String))) :
    ∃ a b c d,
      (g.generate env destPre).trace = a ++ b ++ c ++ d
      ∧ (a = [] ∨ a = [Event.evRmtree])
      ∧ (b = [] ∨ b = [Event.evCopyTemplate])
      ∧ (∀ x ∈ c, ∃ p, x = Event.evInsert p)
      ∧ (d = [] ∨ d = [Event.evCopyExamples]) := by
  obtain ⟨b, c, d, htr, hb, hc, hd⟩ := generateFrom_trace_shape g env
  cases destPre with
  | none => exact ⟨[], b, c, d, by simpa using htr, Or.inl rfl, hb, hc, hd⟩
  | some files =>
    refine ⟨[Event.evRmtree], b, c, d, ?_, Or.inr rfl, hb, hc, hd⟩
    show Event.evRmtree :: (g.generateFrom env).trace = _
    simp [htr]

/-- Whether a configured reference resolves to a class whose canonical dotted
path is `path` (the condition under which `_fill_aliases` records it). -/
def resolvesToClassAt (env : Env) (path : String) (e : Element) : Bool :=
  match import_object env e with
  | some o => decide (o.kind = PyKind.cls) && decide (get_dotted_path o = path)
  | none => false

/-- All configured references, in pages iteration order. -/
def flattenElements (pages : List (String × PageValue)) : List Element :=
  (pages.map (fun kv => kv.2.elems)).flatten

theorem fillFromElements_append (env : Env) :
    ∀ (xs ys : List Element) (t : List (String × Element)),
    fillFromElements env t (xs ++ ys) =
      match fillFromElements env t xs with
      | .error e => .error e
      | .ok t1 => fillFromElements env t1 ys := by
  intro xs
  induction xs with
  | nil => intro ys t; rfl
  | cons e rest ih =>
    intro ys t
    simp only [List.cons_append, fillFromElements]
    cases himp : import_object env e with
    | none => rfl
    | some o =>
      by_cases hc : o.kind = PyKind.cls <;> simp [hc, ih]

theorem fillFromElements_get (env : Env) (path : String) :
    ∀ (els : List Element) (t t' : List (String × Element)),
    fillFromElements env t els = .ok t' →
    dictGet t' path =
      els.foldl (fun acc e => if resolvesToClassAt env path e then some e else acc)
        (dictGet t path) := by
  intro els
  induction els with
  | nil =>
    intro t t' h
    cases h
    rfl
  | cons e rest ih =>
    intro t t' h
    simp only [fillFromElements] at h
    cases himp : import_object env e with
    | none => simp [himp] at h
    | some o =>
      simp only [List.foldl_cons]
      by_cases hc : o.kind = PyKind.cls
      · simp only [himp, if_pos hc] at h
        rw [ih _ _ h]
        congr 1
        rw [dictGet_dictAssign]
        by_cases hp : get_dotted_path o = path <;>
          simp [resolvesToClassAt, himp, hc, hp]
      · simp only [himp, if_neg hc] at h
        rw [ih _ _ h]
        congr 1
        simp [resolvesToClassAt, himp, hc]

theorem fill_aliases_flatten (env : Env) :
    ∀ (pages : List (String × PageValue)) (t t' : List (String × Element)),
    _fill_aliases env pages t = .ok t' →
    fillFromElements env t (flattenElements pages) = .ok t' := by
  intro pages
  induction pages with
  | nil =>
    intro t t' h
    cases h
    rfl
  | cons kv rest ih =>
    intro t t' h
    obtain ⟨k, v⟩ := kv
    cases v with
    | other r tn => simp [_fill_aliases] at h
    | list xs =>
      simp only [_fill_aliases] at h
      cases hfe : fillFromElements env t xs with
      | error e => rw [hfe] at h; simp at h
      | ok t1 =>
        rw [hfe] at h
        have hfl : flattenElements ((k, PageValue.list xs) :: rest) =
            xs ++ flattenElements rest := by
          simp [flattenElements, PageValue.elems]
        rw [hfl, fillFromElements_append env xs _ t, hfe]
        exact ih t1 t' h
    | tuple xs =>
      simp only [_fill_aliases] at h
      cases hfe : fillFromElements env t xs with
      | error e => rw [hfe] at h; simp at h
      | ok t1 =>
        rw [hfe] at h
        have hfl : flattenElements ((k, PageValue.tuple xs) :: rest) =
            xs ++ flattenElements rest := by
          simp [flattenElements, PageValue.elems]
        rw [hfl, fillFromElements_append env xs _ t, hfe]
        exact ih t1 t' h

theorem foldl_lastChoice {α : Type} (p : α → Bool) :
    ∀ (l : List α) (acc : Option α),
    l.foldl (fun a e => if p e then some e else a) acc =
      match (l.filter p).getLast? with
      | some x => some x
      | none => acc := by
  intro l
  induction l with
  | nil => intro acc; rfl
  | cons e rest ih =>
    intro acc
    simp only [List.foldl_cons, List.filter_cons]
    by_cases hp : p e = true
    · simp only [hp, if_true]
      rw [ih (some e)]
      cases hfr : rest.filter p with
      | nil => simp
      | cons y ys =>
        rw [List.getLast?_cons_cons]
        have hs : ((y :: ys).getLast?).isSome := by
          rw [List.getLast?_isSome]
          simp
        obtain ⟨z, hz⟩ := Option.isSome_iff_exists.mp hs
        rw [hz]
    · simp only [hp, if_false, Bool.false_eq_true]
      rw [ih acc]

/-- Claim C10: after a successful alias-table construction, the lookup of any
canonical dotted path in the table is exactly the last configured reference
(in pages iteration order) that resolves to a class with that path — so only
class-resolving references are recorded and the last write wins. -/
theorem C10_alias_table (env : Env) (pages : List (String × PageValue))
    (t : List (String × Element)) (h : _fill_aliases env pages [] = .ok t)
    (path : String) :
    dictGet t path =
      ((flattenElements pages).filter (resolvesToClassAt env path)).getLast? := by
  have h1 := fill_aliases_flatten env pages [] t h
  have h2 := fillFromElements_get env path (flattenElements pages) [] t h1
  rw [h2, foldl_lastChoice (resolvesToClassAt env path)]
  cases hgl : ((flattenElements pages).filter (resolvesToClassAt env path)).getLast? with
  | none => rfl
  | some x => rfl

/-- A documentable class used by the C10 witness. -/
def clsObj : LiveObject :=
  { name := "Dense", dottedPath := "pkg.layers.Dense", topPackage := "pkg", kind := .cls,
    docstring := some "A layer.", paramsText := "units" }

/-- An environment in which the same class resolves under its canonical path
and under an alias path. -/
def env10 : Env := fun s =>
  if s = "pkg.layers.Dense" then some clsObj
  else if s = "alias.Dense" then some clsObj
  else none

/-- One page referencing the same class under two different strings. -/
def pages10 : List (String × PageValue) :=
  [("a.md", PageValue.list [Element.str "pkg.layers.Dense", Element.str "alias.Dense"])]

/-- The alias table `_fill_aliases` builds over `pages10`. -/
def t10 : List (String × Element) := [("pkg.layers.Dense", Element.str "alias.Dense")]

/-- Witness for Claim C10: for the concrete configuration referencing the same
class twice, the table maps the canonical path to the alias encountered last. -/
theorem C10_alias_table_witness :
    dictGet t10 "pkg.layers.Dense" = some (Element.str "alias.Dense") := by
  rw [C10_alias_table env10 pages10 t10 rfl "pkg.layers.Dense"]
  rfl

end KerasAutodoc
